import Mathlib

/-!
Verification development for the Agentic-Trader frontend API service
(`frontend/src/services/api.js`): the SSE streaming analysis client
(`analyzePortfolioStream`), the non-streaming analysis calls
(`analyzePortfolio`, `analyzeSingleCompany`), and the company-list
cache (`fetchNifty50`, `fetchAllCompanies`, `clearCache`).

The byte stream is modelled at the level of decoded text (`List Char`):
`TextDecoder.decode(value, \x7bstream: true\x7d)` guarantees that the
concatenation of the decoded chunk texts equals the decoding of the
concatenated bytes, so any byte-level chunking corresponds to a
character-level chunking with the same concatenation.
-/

namespace AgenticTrader

/-- A fragment of decoded stream text. -/
abbrev Frag := List Char

/-- The newline character used by the SSE record delimiter. -/
def nl : Char := '\n'

/-- Helper for the splitter: extend the first fragment of a split with a
leading character (a character that is not part of a delimiter match). -/
def consHead (c : Char) : List Frag → List Frag
  | [] => [[c]]
  | f :: fs => (c :: f) :: fs

/-- Model of the JavaScript `buffer.split(chr(10) ++ chr(10))` used at
line 314 of `api.js`: leftmost, non-overlapping, greedy split of a text
on the two-character delimiter made of two newlines. -/
def splitOnNN : Frag → List Frag
  | [] => [[]]
  | [c] => [[c]]
  | c₁ :: c₂ :: rest =>
    if c₁ = nl ∧ c₂ = nl then [] :: splitOnNN rest
    else consHead c₁ (splitOnNN (c₂ :: rest))

/-- State of the incremental decode loop: the complete records emitted so
far (in order) and the retained trailing fragment (`buffer` in the source). -/
structure DecodeState where
  records : List Frag
  buffer : Frag
  deriving DecidableEq, Repr

/-- One iteration of the `while (true)` read loop of
`analyzePortfolioStream` (lines 305-315 of `api.js`): append the decoded
chunk to the buffer, split on the delimiter, process every complete
record and keep the final (possibly incomplete) fragment as the new
buffer (`buffer = messages.pop() || chr(0)` keeps the last piece). -/
def feedChunk (s : DecodeState) (chunk : Frag) : DecodeState :=
  let parts := splitOnNN (s.buffer ++ chunk)
  { records := s.records ++ parts.dropLast, buffer := parts.getLastD [] }

/-- All complete records produced by the decode loop over a whole chunk
sequence.  On EOF (`done`) the loop breaks and the remaining buffer is
discarded, exactly as in the source. -/
def decodeAllRecords (chunks : List Frag) : List Frag :=
  (chunks.foldl feedChunk ⟨[], []⟩).records

theorem consHead_ne_nil (c : Char) (l : List Frag) : consHead c l ≠ [] := by
  cases l <;> simp [consHead]

theorem splitOnNN_ne_nil : ∀ l : Frag, splitOnNN l ≠ []
  | [] => by simp [splitOnNN]
  | [c] => by simp [splitOnNN]
  | c₁ :: c₂ :: rest => by
    unfold splitOnNN
    split
    · simp
    · exact consHead_ne_nil _ _

theorem splitOnNN_cons₂_pos (rest : Frag) :
    splitOnNN (nl :: nl :: rest) = [] :: splitOnNN rest := by
  simp [splitOnNN]

theorem splitOnNN_cons₂_neg {c₁ c₂ : Char} (rest : Frag)
    (h : ¬(c₁ = nl ∧ c₂ = nl)) :
    splitOnNN (c₁ :: c₂ :: rest) = consHead c₁ (splitOnNN (c₂ :: rest)) := by
  simp [splitOnNN, h]

/-- If splitting `c :: rest` produces a single fragment, that fragment
starts with `c`. -/
theorem splitOnNN_singleton {c : Char} {rest f : Frag}
    (h : splitOnNN (c :: rest) = [f]) : ∃ g, f = c :: g := by
  match rest with
  | [] =>
    simp [splitOnNN] at h
    exact ⟨[], by simp [← h]⟩
  | r :: rest' =>
    by_cases hg : c = nl ∧ r = nl
    · rw [hg.1, hg.2, splitOnNN_cons₂_pos] at h
      have := splitOnNN_ne_nil rest'
      cases heq : splitOnNN rest' with
      | nil => exact absurd heq this
      | cons x xs => rw [heq] at h; simp at h
    · rw [splitOnNN_cons₂_neg _ hg] at h
      have := splitOnNN_ne_nil (r :: rest')
      cases heq : splitOnNN (r :: rest') with
      | nil => exact absurd heq this
      | cons x xs =>
        rw [heq] at h
        simp [consHead] at h
        exact ⟨x, by simp [h.1]⟩

/-- Leftmost greedy splitting composes across an append boundary: the
fragments strictly before the last fragment of `u` are final, and
splitting restarts from the retained last fragment joined with `v`.
This is the correctness core of the incremental framing loop. -/
theorem splitOnNN_append : ∀ u v : Frag,
    splitOnNN (u ++ v) =
      (splitOnNN u).dropLast ++ splitOnNN ((splitOnNN u).getLastD [] ++ v)
  | [], v => by simp [splitOnNN]
  | [c], v => by simp [splitOnNN]
  | c₁ :: c₂ :: rest, v => by
    by_cases h : c₁ = nl ∧ c₂ = nl
    · rw [h.1, h.2]
      have lhs : (nl :: nl :: rest) ++ v = nl :: nl :: (rest ++ v) := by simp
      rw [lhs, splitOnNN_cons₂_pos, splitOnNN_cons₂_pos]
      obtain ⟨x, xs, heq⟩ : ∃ x xs, splitOnNN rest = x :: xs := by
        cases hh : splitOnNN rest with
        | nil => exact absurd hh (splitOnNN_ne_nil rest)
        | cons x xs => exact ⟨x, xs, rfl⟩
      have ih := splitOnNN_append rest v
      rw [heq] at ih
      simp only [List.getLastD_cons] at ih
      rw [heq]
      simp only [List.dropLast_cons_of_ne_nil (List.cons_ne_nil x xs),
        List.getLastD_cons, List.cons_append]
      rw [ih]
    · have lhs : (c₁ :: c₂ :: rest) ++ v = c₁ :: c₂ :: (rest ++ v) := by simp
      rw [lhs, splitOnNN_cons₂_neg _ h, splitOnNN_cons₂_neg _ h]
      have hback : c₂ :: (rest ++ v) = (c₂ :: rest) ++ v := by simp
      rw [hback]
      have ih := splitOnNN_append (c₂ :: rest) v
      cases heq : splitOnNN (c₂ :: rest) with
      | nil => exact absurd heq (splitOnNN_ne_nil _)
      | cons f fs =>
        rw [heq] at ih
        cases fs with
        | nil =>
          -- single fragment: it starts with c₂, so no delimiter match can
          -- arise at the freshly exposed boundary
          obtain ⟨g, hf⟩ := splitOnNN_singleton heq
          rw [ih]
          simp only [consHead, List.dropLast_single, List.getLastD_cons,
            List.getLastD_nil, List.nil_append]
          subst hf
          simp only [List.cons_append]
          rw [splitOnNN_cons₂_neg _ h]
          rfl
        | cons f₂ fs' =>
          rw [ih]
          simp only [consHead, List.getLastD_cons,
            List.dropLast_cons_of_ne_nil (List.cons_ne_nil f₂ fs'),
            List.cons_append]

/-- Feeding two chunks in sequence is the same as feeding their
concatenation: the decode loop is insensitive to chunk boundaries. -/
theorem feedChunk_append (s : DecodeState) (a b : Frag) :
    feedChunk (feedChunk s a) b = feedChunk s (a ++ b) := by
  unfold feedChunk
  have key := splitOnNN_append (s.buffer ++ a) b
  obtain ⟨r, rs, hr⟩ : ∃ r rs, splitOnNN ((splitOnNN (s.buffer ++ a)).getLastD [] ++ b) = r :: rs := by
    cases hh : splitOnNN ((splitOnNN (s.buffer ++ a)).getLastD [] ++ b) with
    | nil => exact absurd hh (splitOnNN_ne_nil _)
    | cons r rs => exact ⟨r, rs, rfl⟩
  simp only [List.append_assoc] at key ⊢
  rw [key, hr]
  rw [List.dropLast_append_cons]
  rw [List.getLastD_eq_getLast?, List.getLastD_eq_getLast?,
    List.getLast?_append,
    List.getLast?_eq_getLast (r :: rs) (List.cons_ne_nil r rs), Option.or_some]

theorem foldl_feedChunk (chunks : List Frag) :
    ∀ (c : Frag) (s : DecodeState),
      (c :: chunks).foldl feedChunk s = feedChunk s (c :: chunks).flatten := by
  induction chunks with
  | nil =>
    intro c s
    simp [feedChunk]
  | cons d ds ih =>
    intro c s
    have step : (c :: d :: ds).foldl feedChunk s = (d :: ds).foldl feedChunk (feedChunk s c) := by
      simp
    rw [step, ih d (feedChunk s c), feedChunk_append]
    simp [List.append_assoc]

/-- The records delimited by the whole decode loop depend only on the
concatenation of the chunks. -/
theorem decodeAllRecords_flatten (chunks : List Frag) :
    decodeAllRecords chunks = (feedChunk ⟨[], []⟩ chunks.flatten).records := by
  cases chunks with
  | nil =>
    simp [decodeAllRecords, feedChunk, splitOnNN]
  | cons c cs =>
    unfold decodeAllRecords
    rw [foldl_feedChunk cs c ⟨[], []⟩]

/-! ## Record to event decoding (lines 317-359 of `api.js`) -/

/-- ASCII whitespace as recognised by the JavaScript `String.trim`
(restricted to the characters that can appear in this protocol). -/
def isJsWhitespace (c : Char) : Bool :=
  c = ' ' ∨ c = '\t' ∨ c = nl ∨ c = '\r' ∨ c = '\x0b' ∨ c = '\x0c'

/-- `!message.trim()` in the source: true when the record is empty or
whitespace only. -/
def trimIsEmpty (msg : Frag) : Bool :=
  msg.all isJsWhitespace

/-- Split a record into its lines (single newline separator), for the
multiline regex match `^data: (.+)$`. -/
def splitLines : Frag → List Frag
  | [] => [[]]
  | c :: rest =>
    if c = nl then [] :: splitLines rest
    else consHead c (splitLines rest)

/-- One line matched against the regex `^data: (.+)$`: the line must
start with the six characters of the field marker `data: ` and carry a
nonempty payload (`(.+)` needs at least one character). Returns the
captured payload. -/
def dataPayload? (line : Frag) : Option Frag :=
  if line.take 6 = ("data: ").toList ∧ 6 < line.length then
    some (line.drop 6)
  else none

/-- `message.match(regex)` with the `m` flag returns the first matching
line: the payload of the first line carrying the field marker. -/
def extractData (msg : Frag) : Option Frag :=
  (splitLines msg).findSome? dataPayload?

/-- A per-item analysis record as stored by the client (`event.result`);
the client treats it opaquely, so only the fields named by the spec
scenarios are modelled. -/
structure ResultRecord where
  symbol : String
  status : String
  error_message : Option String := none
  deriving DecidableEq, Repr

/-- The `summary` object of a `complete` event. -/
structure Summary where
  total_items : Nat
  succeeded : Nat
  failed : Nat
  deriving DecidableEq, Repr

/-- The tagged event union produced by `JSON.parse` on a record payload,
with exactly the fields the `switch` in `analyzePortfolioStream` reads. -/
inductive SSEEvent where
  | start (total_companies : Nat)
  | progress (current : Nat) (total : Nat) (symbol : String)
  | result (result : ResultRecord) (completed : Nat) (total : Nat)
  | complete (summary : Summary)
  | error (msg : String)
  deriving DecidableEq, Repr

/-- Decoding of one delimited record (lines 317-325 of `api.js`):
whitespace-only records are skipped, records with no `data: ` line are
skipped, and a payload on which `JSON.parse` fails (`parse` returns
`none`, the thrown exception being caught at line 357) is dropped.
`parse` abstracts the `JSON.parse` builtin. -/
def decodeRecord (parse : Frag → Option SSEEvent) (msg : Frag) : Option SSEEvent :=
  if trimIsEmpty msg then none
  else
    match extractData msg with
    | none => none
    | some payload => parse payload

/-- The ordered event sequence produced from the ordered record
sequence. -/
def decodeEvents (parse : Frag → Option SSEEvent) (msgs : List Frag) : List SSEEvent :=
  msgs.filterMap (decodeRecord parse)

/-! ## Session aggregation (lines 326-369 of `api.js`) -/

/-- One caller callback invocation, with its arguments. -/
inductive CallbackCall where
  | onProgress (current : Nat) (total : Nat) (symbol : String)
  | onResult (result : ResultRecord) (completed : Nat) (total : Nat)
  deriving DecidableEq, Repr

/-- Session state of one streaming call: the accumulated `results`
array, the stored `summary`, and the trace of callback invocations in
order. -/
structure SessState where
  results : List ResultRecord
  summary : Option Summary
  calls : List CallbackCall
  deriving DecidableEq, Repr

def initSession : SessState := ⟨[], none, []⟩

/-- The `switch (event.type)` of `analyzePortfolioStream`. A `start`
event only logs. A `progress` event invokes `onProgress(current, total,
symbol)`. A `result` event appends `event.result` to `results` and
invokes `onResult`. A `complete` event stores `summary`. On an `error`
event the source executes `throw new Error(event.error)` inside the
`try` block whose `catch (parseError)` clause at line 357 catches every
exception thrown while handling a record: the throw is swallowed, the
state is left unchanged and the loop continues with the next record. -/
def processEvent (s : SessState) (e : SSEEvent) : SessState :=
  match e with
  | .start _ => s
  | .progress current total symbol =>
      { s with calls := s.calls ++ [.onProgress current total symbol] }
  | .result r completed total =>
      { s with results := s.results ++ [r],
               calls := s.calls ++ [.onResult r completed total] }
  | .complete summary => { s with summary := some summary }
  | .error _ => s

def foldEvents (events : List SSEEvent) : SessState :=
  events.foldl processEvent initSession

/-- The value the call resolves with (lines 365-369 of `api.js`):
`\x7b ...summary, results, success: true \x7d`. Spreading a `null`
summary contributes no fields, so the summary fields are `none` when no
`complete` event was stored. -/
structure StreamResult where
  total_items : Option Nat
  succeeded : Option Nat
  failed : Option Nat
  results : List ResultRecord
  success : Bool
  deriving DecidableEq, Repr

def finishStream (s : SessState) : StreamResult :=
  { total_items := s.summary.map (fun x => x.total_items)
    succeeded := s.summary.map (fun x => x.succeeded)
    failed := s.summary.map (fun x => x.failed)
    results := s.results
    success := true }

/-- The whole streaming call `analyzePortfolioStream` on an open
response: if `response.ok` is false the call rejects with the server
detail; otherwise the chunk stream is decoded, every event folded into
the session state, and after EOF the call resolves with the aggregated
value. The returned `Except` models the promise: `Except.error` is a
rejection, `Except.ok` a resolution. -/
def analyzePortfolioStream (parse : Frag → Option SSEEvent) (respOk : Bool)
    (errDetail : String) (chunks : List Frag) : Except String StreamResult :=
  if !respOk then .error errDetail
  else .ok (finishStream (foldEvents (decodeEvents parse (decodeAllRecords chunks))))

/-- The result records carried by the `result` events of a sequence, in
order. -/
def resultsOf (evs : List SSEEvent) : List ResultRecord :=
  evs.filterMap fun e =>
    match e with
    | .result r _ _ => some r
    | _ => none

/-- The callback invocation demanded by one event, if any. -/
def callOf : SSEEvent → Option CallbackCall
  | .progress current total symbol => some (.onProgress current total symbol)
  | .result r completed total => some (.onResult r completed total)
  | _ => none

def callsOf (evs : List SSEEvent) : List CallbackCall :=
  evs.filterMap callOf

def isCompleteEvt : SSEEvent → Bool
  | .complete _ => true
  | _ => false

def isErrorEvt : SSEEvent → Bool
  | .error _ => true
  | _ => false

theorem foldl_processEvent_results (evs : List SSEEvent) :
    ∀ s : SessState, (evs.foldl processEvent s).results = s.results ++ resultsOf evs := by
  induction evs with
  | nil => intro s; simp [resultsOf]
  | cons e es ih =>
    intro s
    rw [List.foldl_cons, ih]
    cases e <;> simp [processEvent, resultsOf]

theorem foldl_processEvent_calls (evs : List SSEEvent) :
    ∀ s : SessState, (evs.foldl processEvent s).calls = s.calls ++ callsOf evs := by
  induction evs with
  | nil => intro s; simp [callsOf]
  | cons e es ih =>
    intro s
    rw [List.foldl_cons, ih]
    cases e <;> simp [processEvent, callsOf, callOf]

theorem foldl_processEvent_summary (evs : List SSEEvent)
    (h : ∀ e ∈ evs, isCompleteEvt e = false) :
    ∀ s : SessState, (evs.foldl processEvent s).summary = s.summary := by
  induction evs with
  | nil => intro s; rfl
  | cons e es ih =>
    intro s
    rw [List.foldl_cons, ih (fun x hx => h x (List.mem_cons_of_mem e hx))]
    have he := h e (List.mem_cons_self e es)
    cases e <;> simp_all [processEvent, isCompleteEvt]

/-! ## Non-streaming calls (lines 388-467 of `api.js`) -/

/-- What the underlying `fetch` would do, were it allowed to run to
completion: a response (with its ok flag, the message derived from the
error body for the non-ok branch, and the parsed data for the ok
branch) or a network-level failure. -/
inductive HttpOutcome (α : Type) where
  | response (ok : Bool) (errMsg : String) (data : α)
  | netError (msg : String)
  deriving DecidableEq, Repr

/-- `const timeoutMs = 15 * 60 * 1000` at line 394 of `api.js`. -/
def ANALYZE_TIMEOUT_MS : Nat := 15 * 60 * 1000

/-- `analyzePortfolio` (lines 388-431): an `AbortController` armed with
a 15-minute timer aborts the request; the resulting `AbortError` is
translated into a timeout rejection naming the 15-minute budget.
`requestDurationMs` is the wall-clock time the underlying request needs
to produce its outcome; if it reaches the budget, the abort fires
first. -/
def analyzePortfolio {α : Type} (requestDurationMs : Nat)
    (outcome : HttpOutcome α) : Except String α :=
  if ANALYZE_TIMEOUT_MS ≤ requestDurationMs then
    .error "Analysis timeout: Request took longer than 15 minutes. Please try with fewer companies."
  else
    match outcome with
    | .netError m => .error m
    | .response ok errMsg data => if ok then .ok data else .error errMsg

/-- `analyzeSingleCompany` (lines 440-467): the source creates no
`AbortController` and sets no timer on this path, so the duration of
the underlying request has no influence on the outcome. -/
def analyzeSingleCompany {α : Type} (requestDurationMs : Nat)
    (outcome : HttpOutcome α) : Except String α :=
  match outcome with
  | .netError m => .error m
  | .response ok errMsg data => if ok then .ok data else .error errMsg

/-! ## Company-list cache (lines 11-252 of `api.js`) -/

/-- `const CACHE_DURATION = 1000 * 60 * 60` at line 19. -/
def CACHE_DURATION : Nat := 1000 * 60 * 60

/-- The module-level `cache` object. -/
structure Cache where
  nifty50 : Option (List String)
  nifty100 : Option (List String)
  top200 : Option (List String)
  allNSE : Option (List String)
  timestamp : Option Nat
  deriving DecidableEq, Repr

/-- `isCacheValid` (lines 24-27): false without a timestamp, else
`Date.now() - cache.timestamp < CACHE_DURATION` (integer arithmetic,
as in the source). -/
def isCacheValid (c : Cache) (now : Nat) : Bool :=
  match c.timestamp with
  | none => false
  | some t => decide ((now : Int) - (t : Int) < (CACHE_DURATION : Int))

/-- `clearCache` (lines 246-252): reset every cached field and the
timestamp to null. -/
def clearCache (_ : Cache) : Cache :=
  ⟨none, none, none, none, none⟩

structure CompanyLists where
  nifty50 : List String
  nifty100 : List String
  top200 : List String
  deriving DecidableEq, Repr

/-- Network outcome for `fetchAllCompanies`: either the `/companies/all`
endpoint answers ok (with each of the three arrays possibly absent from
the JSON, defaulted to `[]` by `?.companies || []`), or that endpoint is
unusable (non-ok or thrown) and the three individual fetches are used —
each of those always resolves, because `fetchNifty50`, `fetchNifty100`
and `fetchTop200` all catch their own failures and return fallback
lists, so the final catch at line 181 is unreachable. -/
inductive AllEndpoint where
  | ok (nifty50 nifty100 nifty200 : Option (List String))
  | unusable (nifty50 nifty100 top200 : List String)
  deriving DecidableEq, Repr

structure FetchAllOutput where
  value : CompanyLists
  cache : Cache
  requested : Bool
  deriving DecidableEq, Repr

/-- `fetchAllCompanies` (lines 134-185): serve the three lists from the
cache when the timestamp is fresh and all three lists are present
(JavaScript arrays, including empty ones, are truthy; only `null` fails
the check), otherwise fetch, fill the cache and stamp it with the
current time. `requested` records whether any network request was
issued. -/
def fetchAllCompanies (c : Cache) (now : Nat) (net : AllEndpoint) : FetchAllOutput :=
  if isCacheValid c now ∧ c.nifty50.isSome ∧ c.nifty100.isSome ∧ c.top200.isSome then
    { value := ⟨c.nifty50.getD [], c.nifty100.getD [], c.top200.getD []⟩
      cache := c
      requested := false }
  else
    match net with
    | .ok n50 n100 n200 =>
      { value := ⟨n50.getD [], n100.getD [], n200.getD []⟩
        cache := { c with nifty50 := some (n50.getD [])
                          nifty100 := some (n100.getD [])
                          top200 := some (n200.getD [])
                          timestamp := some now }
        requested := true }
    | .unusable n50 n100 t200 =>
      { value := ⟨n50, n100, t200⟩
        cache := { c with nifty50 := some n50
                          nifty100 := some n100
                          top200 := some t200
                          timestamp := some now }
        requested := true }

/-- The hard-coded fallback list of `fetchNifty50` (lines 46-57). -/
def NIFTY50_FALLBACK : List String :=
  ["RELIANCE", "TCS", "HDFCBANK", "INFY", "ICICIBANK",
   "HINDUNILVR", "ITC", "SBIN", "BHARTIARTL", "KOTAKBANK",
   "AXISBANK", "LT", "ASIANPAINT", "BAJFINANCE", "MARUTI",
   "HCLTECH", "M&M", "TITAN", "WIPRO", "ULTRACEMCO",
   "NESTLEIND", "SUNPHARMA", "POWERGRID", "TECHM", "TATASTEEL",
   "INDUSINDBK", "ADANIPORTS", "BAJAJFINSV", "NTPC", "JSWSTEEL",
   "GRASIM", "COALINDIA", "TATACONSUM", "CIPLA", "HEROMOTOCO",
   "EICHERMOT", "BRITANNIA", "ONGC", "UPL", "SHREECEM",
   "DIVISLAB", "SBILIFE", "BAJAJ-AUTO", "HINDALCO", "ADANIENT",
   "APOLLOHOSP", "IOC", "DRREDDY", "TATAMOTORS", "BPCL"]

/-- Outcome of the `fetch` inside `fetchNifty50`: network failure, or a
response with its ok flag, whether the body parses as JSON, and the
`companies` field of the parsed body (absent or non-array modelled as
`none`). -/
inductive Nifty50Outcome where
  | netError
  | response (ok : Bool) (jsonOk : Bool) (companies : Option (List String))
  deriving DecidableEq, Repr

/-- `fetchNifty50` (lines 32-59): every failure path (network error,
non-ok status, unparsable body) is caught and answered with the
fallback list; an ok JSON body yields `data.companies || []`. Being a
total function into `List String`, the model never rejects. -/
def fetchNifty50 : Nifty50Outcome → List String
  | .netError => NIFTY50_FALLBACK
  | .response ok jsonOk companies =>
    if !ok then NIFTY50_FALLBACK
    else if !jsonOk then NIFTY50_FALLBACK
    else companies.getD []

/-! ## Concrete scenario material -/

/-- Parse table used by the EOF-without-complete scenario: a `start`
record and one `result` record. -/
def parseC1 : Frag → Option SSEEvent := fun p =>
  if p = ("S").toList then some (.start 2)
  else if p = ("R1").toList then some (.result ⟨"AAA", "success", none⟩ 1 2)
  else none

/-- A stream that ends right after its last `result` record, with no
`complete` record. -/
def chunkC1 : Frag := ("data: S\n\ndata: R1\n\n").toList

/-- C1: the spec demands a rejection of kind IncompleteStream when the
stream ends with neither `complete` nor `error` observed, but the source
has no such check: after the read loop ends it unconditionally returns
`\x7b ...summary, results, success: true \x7d`. On a stream consisting
of a `start` and one `result` event and then EOF, the call resolves
successfully and the gathered record is the success payload. -/
theorem eof_no_complete_still_resolves :
    decodeEvents parseC1 (decodeAllRecords [chunkC1]) =
      [.start 2, .result ⟨"AAA", "success", none⟩ 1 2] ∧
    analyzePortfolioStream parseC1 true "" [chunkC1] =
      .ok ⟨none, none, none, [⟨"AAA", "success", none⟩], true⟩ :=
  ⟨by decide, by rfl⟩

/-- C1 (amended): on EOF with no `complete` and no `error` event decoded,
`analyzePortfolioStream` resolves successfully with the gathered result
records in order, `success: true`, and no summary fields, rather than
rejecting with an IncompleteStream error. -/
theorem eof_no_complete_resolves_with_results (parse : Frag → Option SSEEvent)
    (chunks : List Frag)
    (hc : ∀ e ∈ decodeEvents parse (decodeAllRecords chunks), isCompleteEvt e = false)
    (he : ∀ e ∈ decodeEvents parse (decodeAllRecords chunks), isErrorEvt e = false) :
    analyzePortfolioStream parse true "" chunks =
      .ok { total_items := none, succeeded := none, failed := none,
            results := resultsOf (decodeEvents parse (decodeAllRecords chunks)),
            success := true } := by
  have hs : (foldEvents (decodeEvents parse (decodeAllRecords chunks))).summary = none :=
    foldl_processEvent_summary _ hc initSession
  have hr : (foldEvents (decodeEvents parse (decodeAllRecords chunks))).results =
      resultsOf (decodeEvents parse (decodeAllRecords chunks)) := by
    have hb := foldl_processEvent_results (decodeEvents parse (decodeAllRecords chunks)) initSession
    simpa [foldEvents, initSession] using hb
  simp [analyzePortfolioStream, finishStream, hs, hr]

theorem eof_no_complete_resolves_with_results_witness :
    analyzePortfolioStream parseC1 true "" [chunkC1] =
      .ok { total_items := none, succeeded := none, failed := none,
            results := resultsOf (decodeEvents parseC1 (decodeAllRecords [chunkC1])),
            success := true } :=
  eof_no_complete_resolves_with_results parseC1 [chunkC1] (by decide) (by decide)

/-- Parse table with a server `error` record between two `result`
records. -/
def parseC2 : Frag → Option SSEEvent := fun p =>
  if p = ("R1").toList then some (.result ⟨"AAA", "success", none⟩ 1 2)
  else if p = ("E").toList then some (.error "boom")
  else if p = ("R2").toList then some (.result ⟨"BBB", "success", none⟩ 2 2)
  else none

def chunkC2 : Frag := ("data: R1\n\ndata: E\n\ndata: R2\n\n").toList

/-- C2: the spec (and the visible intent of the `throw new
Error(event.error)` at line 355) is that an `error` event immediately
fails the call, stops consumption and hides the partial results; but
that throw sits inside the `try` block whose `catch (parseError)` at
line 357 catches it, so the loop merely logs and continues. On the
stream `result, error, complete-less EOF` with a further `result` after
the `error`, the later event is still consumed and the call resolves
successfully, exposing both partial results as a success payload. -/
theorem error_event_swallowed_and_stream_resolves :
    decodeEvents parseC2 (decodeAllRecords [chunkC2]) =
      [.result ⟨"AAA", "success", none⟩ 1 2, .error "boom",
       .result ⟨"BBB", "success", none⟩ 2 2] ∧
    analyzePortfolioStream parseC2 true "" [chunkC2] =
      .ok ⟨none, none, none,
           [⟨"AAA", "success", none⟩, ⟨"BBB", "success", none⟩], true⟩ :=
  ⟨by decide, by rfl⟩

/-- C3: the ordered record sequence, and hence the ordered event
sequence, produced by the decode loop depends only on the concatenation
of the chunks: chunk boundaries have no effect. -/
theorem decode_chunking_invariant (parse : Frag → Option SSEEvent)
    (cs₁ cs₂ : List Frag) (h : cs₁.flatten = cs₂.flatten) :
    decodeAllRecords cs₁ = decodeAllRecords cs₂ ∧
    decodeEvents parse (decodeAllRecords cs₁) =
      decodeEvents parse (decodeAllRecords cs₂) := by
  have hrec : decodeAllRecords cs₁ = decodeAllRecords cs₂ := by
    rw [decodeAllRecords_flatten, decodeAllRecords_flatten, h]
  exact ⟨hrec, by rw [hrec]⟩

def parseSample : Frag → Option SSEEvent := fun p =>
  if p = ("one").toList then some (.start 1) else none

def sampleStream : Frag := ("data: one\n\ndata: two\n\n").toList

theorem decode_chunking_invariant_witness :
    decodeEvents parseSample (decodeAllRecords (sampleStream.map fun c => [c])) =
      decodeEvents parseSample (decodeAllRecords [sampleStream]) :=
  (decode_chunking_invariant parseSample (sampleStream.map fun c => [c])
    [sampleStream] (by decide)).2

/-- The six JSON payloads of Scenario A of the spec. -/
def pStart : String := "\x7b\"type\":\"start\",\"total_companies\":2\x7d"

def pProg1 : String := "\x7b\"type\":\"progress\",\"current\":1,\"total\":2,\"symbol\":\"AAA\"\x7d"

def pRes1 : String := "\x7b\"type\":\"result\",\"result\":\x7b\"symbol\":\"AAA\",\"status\":\"success\"\x7d,\"completed\":1,\"total\":2\x7d"

def pProg2 : String := "\x7b\"type\":\"progress\",\"current\":2,\"total\":2,\"symbol\":\"BBB\"\x7d"

def pRes2 : String := "\x7b\"type\":\"result\",\"result\":\x7b\"symbol\":\"BBB\",\"status\":\"error\",\"error_message\":\"x\"\x7d,\"completed\":2,\"total\":2\x7d"

def pComplete : String := "\x7b\"type\":\"complete\",\"summary\":\x7b\"total_items\":2,\"succeeded\":1,\"failed\":1\x7d\x7d"

def rAAA : ResultRecord := ⟨"AAA", "success", none⟩

def rBBB : ResultRecord := ⟨"BBB", "error", some "x"⟩

/-- `JSON.parse` restricted to the six payloads of Scenario A. -/
def parseScenA : Frag → Option SSEEvent := fun p =>
  if p = pStart.toList then some (.start 2)
  else if p = pProg1.toList then some (.progress 1 2 "AAA")
  else if p = pRes1.toList then some (.result rAAA 1 2)
  else if p = pProg2.toList then some (.progress 2 2 "BBB")
  else if p = pRes2.toList then some (.result rBBB 2 2)
  else if p = pComplete.toList then some (.complete ⟨2, 1, 1⟩)
  else none

/-- The wire form of Scenario A: six `data: <json>` records each closed
by a blank line. -/
def streamScenA : Frag :=
  ("data: " ++ pStart ++ "\n\ndata: " ++ pProg1 ++ "\n\ndata: " ++ pRes1 ++
   "\n\ndata: " ++ pProg2 ++ "\n\ndata: " ++ pRes2 ++
   "\n\ndata: " ++ pComplete ++ "\n\n").toList

set_option maxRecDepth 8192 in
/-- C4: on the six-event Scenario A stream the call resolves with the
two result records in arrival order merged with the summary fields
(total 2, succeeded 1, failed 1). -/
theorem scenarioA_resolves :
    analyzePortfolioStream parseScenA true "" [streamScenA] =
      .ok ⟨some 2, some 1, some 1, [rAAA, rBBB], true⟩ ∧
    [rAAA, rBBB].length = 2 :=
  ⟨by rfl, by decide⟩

/-- C5: a correctly delimited record carrying a `data: ` payload on
which `JSON.parse` fails is dropped without aborting the stream: the
event sequence, and the folded session state, are exactly those of the
stream with the malformed record removed. -/
theorem malformed_record_dropped (parse : Frag → Option SSEEvent)
    (m p : Frag) (l1 l2 : List Frag)
    (hdata : extractData m = some p) (hbad : parse p = none) :
    decodeRecord parse m = none ∧
    decodeEvents parse (l1 ++ m :: l2) = decodeEvents parse (l1 ++ l2) ∧
    foldEvents (decodeEvents parse (l1 ++ m :: l2)) =
      foldEvents (decodeEvents parse (l1 ++ l2)) := by
  have h1 : decodeRecord parse m = none := by
    unfold decodeRecord
    split
    · rfl
    · rw [hdata]
      exact hbad
  have h2 : decodeEvents parse (l1 ++ m :: l2) = decodeEvents parse (l1 ++ l2) := by
    simp [decodeEvents, List.filterMap_cons, h1]
  exact ⟨h1, h2, by rw [h2]⟩

def parseC5 : Frag → Option SSEEvent := fun p =>
  if p = ("ok1").toList then some (.start 1)
  else if p = ("ok2").toList then some (.complete ⟨1, 1, 0⟩)
  else none

/-- The Scenario C record: a delimited record whose payload is not valid
JSON. -/
def badRecord : Frag := ("data: \x7bnot valid json").toList

theorem malformed_record_dropped_witness :
    decodeRecord parseC5 badRecord = none ∧
    decodeEvents parseC5 ([("data: ok1").toList] ++ badRecord :: [("data: ok2").toList]) =
      decodeEvents parseC5 ([("data: ok1").toList] ++ [("data: ok2").toList]) ∧
    foldEvents (decodeEvents parseC5
        ([("data: ok1").toList] ++ badRecord :: [("data: ok2").toList])) =
      foldEvents (decodeEvents parseC5
        ([("data: ok1").toList] ++ [("data: ok2").toList])) :=
  malformed_record_dropped parseC5 badRecord (("\x7bnot valid json").toList)
    [("data: ok1").toList] [("data: ok2").toList] (by decide) (by decide)

/-- C6: the callback invocation trace of a decoded event sequence is
exactly one `onProgress(current, total, symbol)` per `progress` event
and one `onResult(result, completed, total)` per `result` event, in
event order. -/
theorem callbacks_in_event_order (events : List SSEEvent) :
    (foldEvents events).calls = callsOf events := by
  have hb := foldl_processEvent_calls events initSession
  simpa [foldEvents, initSession] using hb

/-- C7: the cited single-company path creates no timer at all: a request
needing a full hour (far beyond both the claimed 5-minute generic
budget and the 15-minute batch budget) still resolves with its data
instead of rejecting with a Timeout error. -/
theorem single_company_ignores_duration :
    analyzeSingleCompany (1000 * 60 * 60) (.response true "irrelevant" "DATA") =
      .ok "DATA" :=
  by rfl

/-- C7 (amended): only the multi-company batch path
(`analyzePortfolio`) enforces a wall-clock budget — 15 minutes; if the
request exceeds it the call rejects with a timeout error naming the
15-minute budget, whatever the server outcome would have been. The
single-company path has no timeout: its outcome is independent of the
request duration. -/
theorem batch_timeout_and_single_no_timeout {α : Type} (d : Nat)
    (o : HttpOutcome α) (h : ANALYZE_TIMEOUT_MS ≤ d) :
    analyzePortfolio d o =
      .error "Analysis timeout: Request took longer than 15 minutes. Please try with fewer companies." ∧
    analyzeSingleCompany d o = analyzeSingleCompany 0 o := by
  constructor
  · unfold analyzePortfolio
    rw [if_pos h]
  · rfl

theorem batch_timeout_and_single_no_timeout_witness :
    analyzePortfolio (15 * 60 * 1000) (.response true "x" "D") =
      .error "Analysis timeout: Request took longer than 15 minutes. Please try with fewer companies." ∧
    analyzeSingleCompany (15 * 60 * 1000) (.response true "x" "D") =
      analyzeSingleCompany 0 (.response true "x" "D") :=
  batch_timeout_and_single_no_timeout (15 * 60 * 1000)
    (.response true "x" "D") (by decide)

/-- C8: the company-list memo. Within one hour of a fetch that
populated all three lists, a call returns the cached lists, changes
nothing and issues no request; after `clearCache`, or once the hour has
elapsed, the next call fetches, repopulates the three lists and stamps
the cache with the current time. -/
theorem cache_readthrough (c : Cache) (now t : Nat) (net : AllEndpoint)
    (a b d : List String) :
    (c.timestamp = some t → (now : Int) - (t : Int) < (CACHE_DURATION : Int) →
      c.nifty50 = some a → c.nifty100 = some b → c.top200 = some d →
      fetchAllCompanies c now net =
        { value := ⟨a, b, d⟩, cache := c, requested := false }) ∧
    ((fetchAllCompanies (clearCache c) now net).requested = true ∧
      (fetchAllCompanies (clearCache c) now net).cache.timestamp = some now ∧
      (fetchAllCompanies (clearCache c) now net).cache.nifty50.isSome = true ∧
      (fetchAllCompanies (clearCache c) now net).cache.nifty100.isSome = true ∧
      (fetchAllCompanies (clearCache c) now net).cache.top200.isSome = true) ∧
    (c.timestamp = some t → (CACHE_DURATION : Int) ≤ (now : Int) - (t : Int) →
      (fetchAllCompanies c now net).requested = true ∧
      (fetchAllCompanies c now net).cache.timestamp = some now ∧
      (fetchAllCompanies c now net).cache.nifty50.isSome = true ∧
      (fetchAllCompanies c now net).cache.nifty100.isSome = true ∧
      (fetchAllCompanies c now net).cache.top200.isSome = true) := by
  refine ⟨?_, ?_, ?_⟩
  · intro ht hlt h50 h100 h200
    unfold fetchAllCompanies
    rw [if_pos]
    · simp [h50, h100, h200]
    · exact ⟨by simp [isCacheValid, ht, hlt], by simp [h50], by simp [h100], by simp [h200]⟩
  · cases net <;> simp [fetchAllCompanies, clearCache, isCacheValid]
  · intro ht hge
    have hvalid : isCacheValid c now = false := by
      simp [isCacheValid, ht]
      exact hge
    cases net <;> simp [fetchAllCompanies, hvalid]

def cacheW : Cache := ⟨some ["X"], some ["Y"], some ["Z"], none, some 0⟩

def netW : AllEndpoint := .unusable ["A"] ["B"] ["C"]

theorem cache_readthrough_witness :
    fetchAllCompanies cacheW 10 netW =
      { value := ⟨["X"], ["Y"], ["Z"]⟩, cache := cacheW, requested := false } ∧
    (fetchAllCompanies (clearCache cacheW) 10 netW).requested = true ∧
    (fetchAllCompanies cacheW (CACHE_DURATION + 5) netW).requested = true ∧
    (fetchAllCompanies cacheW (CACHE_DURATION + 5) netW).cache.timestamp =
      some (CACHE_DURATION + 5) :=
  ⟨(cache_readthrough cacheW 10 0 netW ["X"] ["Y"] ["Z"]).1
      rfl (by decide) rfl rfl rfl,
   (cache_readthrough cacheW 10 0 netW ["X"] ["Y"] ["Z"]).2.1.1,
   ((cache_readthrough cacheW (CACHE_DURATION + 5) 0 netW ["X"] ["Y"] ["Z"]).2.2
      rfl (by decide)).1,
   ((cache_readthrough cacheW (CACHE_DURATION + 5) 0 netW ["X"] ["Y"] ["Z"]).2.2
      rfl (by decide)).2.1⟩

/-- C9: `fetchNifty50` is a total function into `List String` — every
outcome of the underlying request resolves. A network failure or a
non-ok status yields the built-in fallback list of 50 tickers (a
non-empty list); an ok JSON body without a `companies` field yields the
empty list. -/
theorem fetchNifty50_fallback_and_empty :
    fetchNifty50 .netError = NIFTY50_FALLBACK ∧
    (∀ (jsonOk : Bool) (companies : Option (List String)),
      fetchNifty50 (.response false jsonOk companies) = NIFTY50_FALLBACK) ∧
    NIFTY50_FALLBACK.length = 50 ∧
    NIFTY50_FALLBACK ≠ [] ∧
    fetchNifty50 (.response true true none) = [] :=
  ⟨rfl, fun _ _ => rfl, by rfl, by decide, rfl⟩

/-- `line.startsWith(marker)` for the `data: ` field marker. -/
def startsWithData (line : Frag) : Bool :=
  line.take 6 = ("data: ").toList

theorem dataPayload?_none_of_not_marker {line : Frag}
    (h : startsWithData line = false) : dataPayload? line = none := by
  simp [startsWithData] at h
  simp [dataPayload?, h]

/-- C10: a complete delimited record with no line beginning with
`data: ` (a blank record, an SSE comment, ...) is skipped silently: it
yields no event and the event sequence and folded session state are
those of the stream without it; the stream neither ends nor fails. -/
theorem record_without_data_line_skipped (parse : Frag → Option SSEEvent)
    (m : Frag) (l1 l2 : List Frag)
    (h : ∀ line ∈ splitLines m, startsWithData line = false) :
    decodeRecord parse m = none ∧
    decodeEvents parse (l1 ++ m :: l2) = decodeEvents parse (l1 ++ l2) ∧
    foldEvents (decodeEvents parse (l1 ++ m :: l2)) =
      foldEvents (decodeEvents parse (l1 ++ l2)) := by
  have hext : extractData m = none := by
    unfold extractData
    rw [List.findSome?_eq_none_iff]
    exact fun line hl => dataPayload?_none_of_not_marker (h line hl)
  have h1 : decodeRecord parse m = none := by
    unfold decodeRecord
    split
    · rfl
    · rw [hext]
  have h2 : decodeEvents parse (l1 ++ m :: l2) = decodeEvents parse (l1 ++ l2) := by
    simp [decodeEvents, List.filterMap_cons, h1]
  exact ⟨h1, h2, by rw [h2]⟩

def parseC10 : Frag → Option SSEEvent := fun p =>
  if p = ("go1").toList then some (.progress 1 2 "AAA")
  else if p = ("go2").toList then some (.complete ⟨2, 2, 0⟩)
  else none

/-- An SSE comment record: no line carries the `data: ` marker. -/
def commentRecord : Frag := (": keep-alive").toList

theorem record_without_data_line_skipped_witness :
    decodeRecord parseC10 commentRecord = none ∧
    decodeEvents parseC10
        ([("data: go1").toList] ++ commentRecord :: [("data: go2").toList]) =
      decodeEvents parseC10 ([("data: go1").toList] ++ [("data: go2").toList]) ∧
    foldEvents (decodeEvents parseC10
        ([("data: go1").toList] ++ commentRecord :: [("data: go2").toList])) =
      foldEvents (decodeEvents parseC10
        ([("data: go1").toList] ++ [("data: go2").toList])) :=
  record_without_data_line_skipped parseC10 commentRecord
    [("data: go1").toList] [("data: go2").toList] (by decide)

end AgenticTrader
